import Mathlib

/-!
# Verification of the synevola long-document summarization core

Shallow embedding of the summarization pipeline of `src/streamlit_appv6.py`
(tokenizer adapter, token chunker, summarization orchestrator, chat/completion
dispatch) and of the diarization combination step of `src/audio_processing.py`.

External collaborators (HuggingFace tokenizer, tiktoken, the LM-Studio HTTP
endpoints, the pyannote pipeline) are modelled as explicit oracle parameters;
everything the repository itself computes is translated directly from the
Python source.  While-loops whose termination is in question are embedded with
an explicit fuel parameter: one unit of fuel is one loop iteration, and a
`none` result means the loop did not finish within the given fuel, i.e. for a
result that is `none` for every fuel, the loop never terminates.
-/

namespace Synevola

/-- The chunking loop of `chunk_text_by_tokens` (src/streamlit_appv6.py,
lines 579-586), expressed on window index pairs `(start, end)` over a token
sequence of length `n`:

```python
start = 0
n = len(ids)
while start < n:
    end = min(start + max_tokens, n)
    chunks.append(ids[start:end])
    if end >= n:
        break
    start = end - overlap if end - overlap > 0 else end
```

All quantities are natural numbers (the app passes non-negative
`max_tokens`/`overlap`; for non-negative values, truncated subtraction gives
`end - overlap > 0` and the assigned value exactly as Python does).  `fuel`
bounds the number of iterations; `none` means the loop is still running when
the fuel runs out. -/
def loopWindows : Nat → Nat → Nat → Nat → Nat → Option (List (Nat × Nat))
  | 0, _, _, _, _ => none
  | fuel + 1, n, max_tokens, overlap, start =>
    if start < n then
      let e := min (start + max_tokens) n
      if n ≤ e then
        some [(start, e)]
      else
        let s2 := if 0 < e - overlap then e - overlap else e
        (loopWindows fuel n max_tokens overlap s2).map (fun ws => (start, e) :: ws)
    else
      some []

/-- Python list slicing `l[a:b]` (as used by `words[idx: idx + take]` on
line 600), including the normalization of negative indices. -/
def pySlice {α : Type} (l : List α) (a b : Int) : List α :=
  let n : Int := l.length
  let a2 := if a < 0 then max (n + a) 0 else min a n
  let b2 := if b < 0 then max (n + b) 0 else min b n
  (l.take b2.toNat).drop a2.toNat

/-- Helper for `pySplit`: scan the characters, accumulating the current word
(in reverse) and closing it at each whitespace character. -/
def pySplitAux : List Char → List Char → List String
  | [], acc => if acc.isEmpty then [] else [⟨acc.reverse⟩]
  | c :: cs, acc =>
    if c.isWhitespace then
      (if acc.isEmpty then [] else [⟨acc.reverse⟩]) ++ pySplitAux cs []
    else pySplitAux cs (c :: acc)

/-- Python `text.split()` (line 593): split on runs of whitespace, with no
empty pieces. -/
def pySplit (s : String) : List String :=
  pySplitAux s.data []

/-- The whitespace-fallback decoding loop of `chunk_text_by_tokens`
(lines 597-601): each token window is rendered as a proportional slice of the
word list.

```python
idx = 0
for c in chunks:
    take = max(1, len(c) * ratio)
    decoded.append(" ".join(words[idx: idx + take]))
    idx += take - min(overlap, 50)
```

`idx` lives in `Int` because `take - min(overlap, 50)` can be negative in
Python. -/
def decodeByRatio {τ : Type} (words : List String) (ratio overlap : Nat) :
    List (List τ) → Int → List String
  | [], _ => []
  | c :: rest, idx =>
    let t := max 1 (c.length * ratio)
    String.intercalate " " (pySlice words idx (idx + (t : Int))) ::
      decodeByRatio words ratio overlap rest (idx + (t : Int) - (min overlap 50 : Nat))

/-- `chunk_text_by_tokens` (src/streamlit_appv6.py, lines 574-602).  The
tokenizer backend is an external collaborator: `encode` stands for
`encode_tokens(text, backend, hf_model_id)` (tokens of an abstract type `τ`,
covering both integer ids and the whitespace-fallback word tokens),
`hfDecode = some dec` for the branch
`backend == "HuggingFace" and get_hf_tokenizer(hf_model_id) is not None`
with `dec = tok.decode`, and `ratioRound w i` for the floating-point
expression `int(round(w / i))` of line 596.  `fuel` bounds the iterations of
the chunking loop: `none` means the loop did not terminate within `fuel`
iterations. -/
def chunk_text_by_tokens {τ : Type} (encode : String → List τ)
    (hfDecode : Option (List τ → String)) (ratioRound : Nat → Nat → Nat)
    (fuel : Nat) (text : String) (max_tokens overlap : Nat) : Option (List String) :=
  let ids := encode text
  if ids.isEmpty then some []
  else
    match loopWindows fuel ids.length max_tokens overlap 0 with
    | none => none
    | some ws =>
      let chunks := ws.map (fun w => (ids.drop w.1).take (w.2 - w.1))
      match hfDecode with
      | some dec => some (chunks.map dec)
      | none =>
        let words := pySplit text
        if ids.length = 0 then some [text]
        else
          let ratio := max 1 (ratioRound words.length ids.length)
          some (decodeByRatio words ratio overlap chunks 0)

/-- `count_tokens` (line 571): the length of the encoded token sequence. -/
def count_tokens {τ : Type} (encode : String → List τ) (text : String) : Nat :=
  (encode text).length

/-! ## C1 / C2: non-termination of the chunking loop -/

/-- Once the loop reaches `start = 2` with `n = 5`, `max_tokens = 2`,
`overlap = 2`, it computes `end = 4 < 5` and `start = end - overlap = 2`
again: the state is a fixpoint strictly inside the sequence, so no amount of
fuel completes the loop. -/
lemma loopWindows_stall_two : ∀ fuel, loopWindows fuel 5 2 2 2 = none := by
  intro fuel
  induction fuel with
  | zero => rfl
  | succ f ih =>
    have h : loopWindows (f + 1) 5 2 2 2 =
        (loopWindows f 5 2 2 2).map (fun ws => (2, 4) :: ws) := rfl
    rw [h, ih]
    rfl

/-- From `start = 0` the loop with `n = 5`, `max_tokens = 2`, `overlap = 2`
moves to the stalling state `start = 2` after one iteration. -/
lemma loopWindows_stall_zero : ∀ fuel, loopWindows fuel 5 2 2 0 = none := by
  intro fuel
  cases fuel with
  | zero => rfl
  | succ f =>
    have h : loopWindows (f + 1) 5 2 2 0 =
        (loopWindows f 5 2 2 2).map (fun ws => (0, 2) :: ws) := rfl
    rw [h, loopWindows_stall_two]
    rfl

/-- C1: the claim says that for `overlap ≥ max_tokens > 0` the chunk window
start positions still advance by at least one token per step, so the loop
terminates.  The code has no such guard: on a 5-token sequence with
`max_tokens = 2`, `overlap = 2`, the loop reaches `start = 2`, computes
`end = 4` and sets `start = end - overlap = 2` again, so it never terminates:
for every fuel bound, both the window loop and `chunk_text_by_tokens`
are still running (`none`). -/
theorem chunking_stalls_when_overlap_eq_max_tokens :
    (∀ fuel, loopWindows fuel 5 2 2 0 = none) ∧
    (∀ fuel, chunk_text_by_tokens (fun _ => ([0, 1, 2, 3, 4] : List Nat))
      (none : Option (List Nat → String)) (fun _ _ => 1) fuel "t0 t1 t2 t3 t4" 2 2 = none) := by
  constructor
  · exact loopWindows_stall_zero
  · intro fuel
    have h := loopWindows_stall_zero fuel
    simp [chunk_text_by_tokens, h]

/-- With `max_tokens = 0` the loop computes `end = min(start, n) = start`,
never reaches `end >= n`, and sets `start = end` back to `0`: a fixpoint. -/
lemma loopWindows_zero_max_stuck (overlap : Nat) :
    ∀ fuel n, 0 < n → loopWindows fuel n 0 overlap 0 = none := by
  intro fuel
  induction fuel with
  | zero => intro n _; rfl
  | succ f ih =>
    intro n hn
    have he : min (0 + 0) n = 0 := by omega
    have h : loopWindows (f + 1) n 0 overlap 0 =
        if 0 < n then
          if n ≤ min (0 + 0) n then some [(0, min (0 + 0) n)]
          else (loopWindows f n 0 overlap
            (if 0 < min (0 + 0) n - overlap then min (0 + 0) n - overlap
             else min (0 + 0) n)).map (fun ws => (0, min (0 + 0) n) :: ws)
        else some [] := rfl
    rw [h, if_pos hn, he]
    have h1 : ¬ n ≤ 0 := by omega
    rw [if_neg h1]
    have h2 : ¬ 0 < 0 - overlap := by omega
    rw [if_neg h2, ih n hn]
    rfl

/-- C2: the claim says chunking with `max_tokens ≤ 0` on a non-empty token
sequence fails immediately with a configuration error.  The code performs no
parameter validation at all: with `max_tokens = 0` the loop keeps appending
empty windows with `start` stuck at `0`, so `chunk_text_by_tokens` never
returns for any fuel bound (and a fortiori never reports an error). -/
theorem chunking_zero_max_tokens_never_returns {τ : Type} (encode : String → List τ)
    (hfDecode : Option (List τ → String)) (ratioRound : Nat → Nat → Nat)
    (text : String) (fuel overlap : Nat) (h : encode text ≠ []) :
    chunk_text_by_tokens encode hfDecode ratioRound fuel text 0 overlap = none := by
  unfold chunk_text_by_tokens
  cases hids : encode text with
  | nil => exact absurd hids h
  | cons a l =>
    have hw : loopWindows fuel (l.length + 1) 0 overlap 0 = none :=
      loopWindows_zero_max_stuck overlap fuel (l.length + 1) (by omega)
    simp [hw]

/-- Concrete run of the C2 theorem: a one-token text with `max_tokens = 0`,
`overlap = 200` and fuel 997 still has not returned. -/
theorem chunking_zero_max_tokens_never_returns_witness :
    chunk_text_by_tokens (fun _ => ([7] : List Nat)) (none : Option (List Nat → String))
      (fun _ _ => 1) 997 "w" 0 200 = none :=
  chunking_zero_max_tokens_never_returns (fun _ => ([7] : List Nat)) none
    (fun _ _ => 1) "w" 997 200 (by decide)

/-! ## C4: window invariants when `0 < overlap < max_tokens` -/

/-- One iteration of the chunking loop, as an equation. -/
lemma loopWindows_succ (fuel n max_tokens overlap start : Nat) :
    loopWindows (fuel + 1) n max_tokens overlap start =
      if start < n then
        if n ≤ min (start + max_tokens) n then some [(start, min (start + max_tokens) n)]
        else (loopWindows fuel n max_tokens overlap
          (if 0 < min (start + max_tokens) n - overlap then min (start + max_tokens) n - overlap
           else min (start + max_tokens) n)).map
            (fun ws => (start, min (start + max_tokens) n) :: ws)
      else some [] := rfl

/-- A finished loop run stays the same when more fuel is provided. -/
lemma loopWindows_mono :
    ∀ {fuel fuel' n max_tokens overlap start : Nat} {ws : List (Nat × Nat)},
    fuel ≤ fuel' →
    loopWindows fuel n max_tokens overlap start = some ws →
    loopWindows fuel' n max_tokens overlap start = some ws := by
  intro fuel
  induction fuel with
  | zero =>
    intro fuel' n max_tokens overlap start ws _ hrun
    exact absurd hrun (by simp [loopWindows])
  | succ f ih =>
    intro fuel' n max_tokens overlap start ws hle hrun
    cases fuel' with
    | zero => omega
    | succ f' =>
      rw [loopWindows_succ] at hrun
      rw [loopWindows_succ]
      by_cases h1 : start < n
      · rw [if_pos h1] at hrun ⊢
        by_cases h2 : n ≤ min (start + max_tokens) n
        · rw [if_pos h2] at hrun ⊢; exact hrun
        · rw [if_neg h2] at hrun ⊢
          cases hrec : loopWindows f n max_tokens overlap
              (if 0 < min (start + max_tokens) n - overlap then
                min (start + max_tokens) n - overlap
               else min (start + max_tokens) n) with
          | none => rw [hrec] at hrun; exact absurd hrun (by simp)
          | some ws' =>
            rw [hrec] at hrun
            rw [ih (by omega) hrec]
            exact hrun
      · rw [if_neg h1] at hrun ⊢; exact hrun


/-- Invariants of the chunking loop when `overlap < max_tokens`: with fuel at
least `n - start` the loop finishes, the first window starts at `start`, the
last window ends at `n`, every window satisfies `end = min(start + max_tokens, n)`,
and consecutive windows `a b` satisfy `b.start + overlap = a.end ≤ b.end`. -/
lemma loopWindows_progress (max_tokens overlap : Nat) (hov : overlap < max_tokens) (n : Nat) :
    ∀ fuel start, start < n → n - start ≤ fuel →
    ∃ ws, loopWindows fuel n max_tokens overlap start = some ws ∧
      (∃ w0 l, ws = w0 :: l ∧ w0.1 = start) ∧
      ws.getLast?.map Prod.snd = some n ∧
      (∀ w ∈ ws, w.1 < w.2 ∧ w.2 = min (w.1 + max_tokens) n) ∧
      List.Chain' (fun a b => a.1 < b.1 ∧ b.1 + overlap = a.2 ∧ a.2 ≤ b.2) ws := by
  intro fuel
  induction fuel with
  | zero => intro start h1 h2; omega
  | succ f ih =>
    intro start h1 h2
    by_cases hend : n ≤ min (start + max_tokens) n
    · have he : min (start + max_tokens) n = n := by omega
      refine ⟨[(start, min (start + max_tokens) n)], ?_, ?_, ?_, ?_, ?_⟩
      · rw [loopWindows_succ, if_pos h1, if_pos hend]
      · exact ⟨(start, min (start + max_tokens) n), [], rfl, rfl⟩
      · simp [he]
      · intro w hw
        rw [List.mem_singleton] at hw
        subst hw
        exact ⟨by omega, rfl⟩
      · simp
    · have he : min (start + max_tokens) n = start + max_tokens := by omega
      have hlt : start + max_tokens < n := by omega
      have hpos : 0 < start + max_tokens - overlap := by omega
      have hs2n : start + max_tokens - overlap < n := by omega
      have hf : n - (start + max_tokens - overlap) ≤ f := by omega
      obtain ⟨ws', hws', ⟨w0, l0, hcons, hw0⟩, hlast, hinv, hchain⟩ :=
        ih (start + max_tokens - overlap) hs2n hf
      refine ⟨(start, start + max_tokens) :: ws', ?_, ?_, ?_, ?_, ?_⟩
      · rw [loopWindows_succ, if_pos h1, if_neg hend, he, if_pos hpos, hws']
        rfl
      · exact ⟨(start, start + max_tokens), ws', rfl, rfl⟩
      · rw [hcons, List.getLast?_cons_cons]
        rw [hcons] at hlast
        exact hlast
      · intro w hw
        rcases List.mem_cons.mp hw with hw | hw
        · subst hw
          exact ⟨by omega, he.symm⟩
        · exact hinv w hw
      · rw [hcons]
        rw [hcons] at hchain
        rw [List.chain'_cons]
        refine ⟨⟨?_, ?_, ?_⟩, hchain⟩
        · rw [hw0]; omega
        · rw [hw0]; omega
        · have h0 := hinv w0 (by rw [hcons]; exact List.mem_cons_self w0 l0)
          rw [h0.2, hw0]
          omega

/-- C4: on a non-empty token sequence with `0 < overlap < max_tokens` and
enough fuel, the chunking loop terminates and: every window (hence every chunk
slice `ids[start:end]`) has at most `max_tokens` tokens, each pair of
consecutive windows overlaps by exactly `overlap` tokens, and the windows are
emitted in document order, gap-free, covering the sequence from index 0 to its
end. -/
theorem chunk_windows_bounded_ordered_cover {τ : Type} (ids : List τ)
    (max_tokens overlap fuel : Nat) (hids : ids ≠ []) (hov : 0 < overlap)
    (hlt : overlap < max_tokens) (hfuel : ids.length ≤ fuel) :
    ∃ ws, loopWindows fuel ids.length max_tokens overlap 0 = some ws ∧
      (∃ w0 l, ws = w0 :: l ∧ w0.1 = 0) ∧
      ws.getLast?.map Prod.snd = some ids.length ∧
      (∀ w ∈ ws, w.1 < w.2 ∧ w.2 - w.1 ≤ max_tokens ∧
        ((ids.drop w.1).take (w.2 - w.1)).length = w.2 - w.1) ∧
      List.Chain' (fun a b => a.1 < b.1 ∧ b.1 < a.2 ∧ a.2 ≤ b.2 ∧ a.2 - b.1 = overlap) ws := by
  have hn : 0 < ids.length := List.length_pos.mpr hids
  obtain ⟨ws, hws, hhead, hlast, hinv, hchain⟩ :=
    loopWindows_progress max_tokens overlap hlt ids.length fuel 0 hn (by omega)
  refine ⟨ws, hws, hhead, hlast, ?_, ?_⟩
  · intro w hw
    obtain ⟨hwlt, hwe⟩ := hinv w hw
    have hwn : w.2 ≤ ids.length := by omega
    refine ⟨hwlt, by omega, ?_⟩
    rw [List.length_take, List.length_drop]
    omega
  · refine hchain.imp ?_
    intro a b hab
    obtain ⟨h1, h2, h3⟩ := hab
    exact ⟨h1, by omega, h3, by omega⟩

/-- Concrete run of the C4 theorem: 5 tokens, `max_tokens = 3`, `overlap = 1`
(windows `[0,3)` and `[2,5)`). -/
theorem chunk_windows_bounded_ordered_cover_witness :
    ∃ ws, loopWindows 5 ([0, 1, 2, 3, 4] : List Nat).length 3 1 0 = some ws ∧
      (∃ w0 l, ws = w0 :: l ∧ w0.1 = 0) ∧
      ws.getLast?.map Prod.snd = some ([0, 1, 2, 3, 4] : List Nat).length ∧
      (∀ w ∈ ws, w.1 < w.2 ∧ w.2 - w.1 ≤ 3 ∧
        ((([0, 1, 2, 3, 4] : List Nat).drop w.1).take (w.2 - w.1)).length = w.2 - w.1) ∧
      List.Chain' (fun a b => a.1 < b.1 ∧ b.1 < a.2 ∧ a.2 ≤ b.2 ∧ a.2 - b.1 = 1) ws :=
  chunk_windows_bounded_ordered_cover ([0, 1, 2, 3, 4] : List Nat) 3 1 5
    (by decide) (by decide) (by decide) (by decide)

/-! ## Summarization orchestrator (`generate_summary`) -/

/-- The per-chunk summarization loop of `generate_summary`
(src/streamlit_appv6.py, lines 807-814):

```python
partial_summaries = []
for i, ch in enumerate(chunks, 1):
    p = f"{user_prompt}\n\nTu résumes le **bloc {i}/{len(chunks)}** ci-dessous.\n```text\n{ch}\n```"
    smry = chat_or_complete(...)
    partial_summaries.append(f"### Bloc {i}\n{smry}")
```

`oracle k` is the outcome of the `k`-th external `chat_or_complete` call of
the pipeline run (`Except.error e` = the call raised an exception rendering
as `e`; the exception aborts the loop and propagates).  Returns the
accumulated block summaries or the first error, the user prompts issued in
order, and the index of the next call. -/
def summarizeBlocks (oracle : Nat → Except String String) (user_prompt : String)
    (total : Nat) : List String → Nat → Nat →
    Except String (List String) × List String × Nat
  | [], _, k => (Except.ok [], [], k)
  | ch :: rest, i, k =>
    let p := user_prompt ++ "\n\nTu résumes le **bloc " ++ toString i ++ "/" ++
      toString total ++ "** ci-dessous.\n```text\n" ++ ch ++ "\n```"
    match oracle k with
    | Except.error e => (Except.error e, [p], k + 1)
    | Except.ok smry =>
      match summarizeBlocks oracle user_prompt total rest (i + 1) (k + 1) with
      | (res, ps, k2) =>
        (res.map (fun l => ("### Bloc " ++ toString i ++ "\n" ++ smry) :: l),
         p :: ps, k2)

/-- `generate_summary` (src/streamlit_appv6.py, lines 782-829).  External
collaborators are parameters: `encode`, `hfDecode` and `ratioRound` are the
tokenizer collaborators shared with `chunk_text_by_tokens`, and `oracle k` is
the outcome of the `k`-th `chat_or_complete` call.  The result is `none` when
the chunking loop exceeded `fuel`; otherwise it is the Python return value
`(summary_text, chunk_summaries)` — or the exception that propagated — paired
with the list of user prompts issued to the LLM, in order.  The
`status_container` progress messages are UI side effects and are not
modelled.  The LLM-call parameters `lm_base_url`, `lm_model`,
`system_prompt`, `temperature`, `max_tokens` and `api_mode_key` are passed
through unchanged to every call and are absorbed into `oracle`. -/
def generate_summary {τ : Type} (encode : String → List τ)
    (hfDecode : Option (List τ → String)) (ratioRound : Nat → Nat → Nat)
    (oracle : Nat → Except String String) (fuel : Nat)
    (text_for_llm user_prompt : String) (chunk_size overlap : Nat)
    (mode_resume : String) :
    Option (Except String (String × List String) × List String) :=
  let total_tokens := count_tokens encode text_for_llm
  if mode_resume.startsWith "Résumé direct" = true ∨ total_tokens ≤ chunk_size then
    let prompt := user_prompt ++ "\n\nTexte à résumer:\n```text\n" ++ text_for_llm ++ "\n```"
    match oracle 0 with
    | Except.ok s => some (Except.ok (s, []), [prompt])
    | Except.error e => some (Except.error e, [prompt])
  else
    match chunk_text_by_tokens encode hfDecode ratioRound fuel text_for_llm chunk_size overlap with
    | none => none
    | some chunks =>
      match summarizeBlocks oracle user_prompt chunks.length chunks 1 0 with
      | (Except.error e, ps, _) => some (Except.error e, ps)
      | (Except.ok blocks, ps, k) =>
        let joined := String.intercalate "\n\n" blocks
        let synth := user_prompt ++ "\n\nVoici les résumés des blocs :\n" ++ joined ++
          "\n\nProduis **un seul résumé final** structuré. Ne répète pas bloc par bloc."
        match oracle k with
        | Except.ok s => some (Except.ok (s, blocks), ps ++ [synth])
        | Except.error e => some (Except.error e, ps ++ [synth])

/-- The block summaries produced by a run of the per-chunk loop in which every
call succeeds: in chunk order, block `i` (1-based) is tagged `### Bloc i` and
holds the output `f k` of the `k`-th call. -/
def expectedBlocks (f : Nat → String) : List String → Nat → Nat → List String
  | [], _, _ => []
  | _ :: rest, i, k =>
    ("### Bloc " ++ toString i ++ "\n" ++ f k) :: expectedBlocks f rest (i + 1) (k + 1)

/-- The user prompts issued by the per-chunk loop, in chunk order: prompt `i`
names `bloc i/total` and embeds only chunk `i`. -/
def expectedPrompts (user_prompt : String) (total : Nat) :
    List String → Nat → List String
  | [], _ => []
  | ch :: rest, i =>
    (user_prompt ++ "\n\nTu résumes le **bloc " ++ toString i ++ "/" ++
      toString total ++ "** ci-dessous.\n```text\n" ++ ch ++ "\n```") ::
      expectedPrompts user_prompt total rest (i + 1)

lemma expectedBlocks_length (f : Nat → String) :
    ∀ chs i k, (expectedBlocks f chs i k).length = chs.length := by
  intro chs
  induction chs with
  | nil => intro i k; rfl
  | cons c rest ih => intro i k; simp [expectedBlocks, ih]

lemma expectedPrompts_length (user_prompt : String) (total : Nat) :
    ∀ chs i, (expectedPrompts user_prompt total chs i).length = chs.length := by
  intro chs
  induction chs with
  | nil => intro i; rfl
  | cons c rest ih => intro i; simp [expectedPrompts, ih]

/-- When every external call succeeds, the per-chunk loop returns the ordered
block summaries and the ordered prompts, and uses one call per chunk. -/
lemma summarizeBlocks_all_ok (oracle : Nat → Except String String)
    (f : Nat → String) (hok : ∀ k, oracle k = Except.ok (f k))
    (user_prompt : String) (total : Nat) :
    ∀ chs i k, summarizeBlocks oracle user_prompt total chs i k =
      (Except.ok (expectedBlocks f chs i k),
       expectedPrompts user_prompt total chs i, k + chs.length) := by
  intro chs
  induction chs with
  | nil => intro i k; rfl
  | cons c rest ih =>
    intro i k
    have hk : k + (c :: rest).length = k + 1 + rest.length := by
      simp only [List.length_cons]
      omega
    rw [summarizeBlocks, hok k, ih (i + 1) (k + 1), hk]
    rfl

/-- The chunked branch of `generate_summary` with an all-successful oracle:
the trace is the chunk prompts in order followed by exactly one synthesis
prompt; the synthesis prompt embeds the block summaries joined in chunk
order; the final summary is the output of the one call after all chunk
calls. -/
lemma generate_summary_chunked_all_ok {τ : Type} (encode : String → List τ)
    (hfDecode : Option (List τ → String)) (ratioRound : Nat → Nat → Nat)
    (oracle : Nat → Except String String) (f : Nat → String)
    (hok : ∀ k, oracle k = Except.ok (f k)) (fuel : Nat)
    (text_for_llm user_prompt : String) (chunk_size overlap : Nat)
    (mode_resume : String) (chunks : List String)
    (hmode : mode_resume.startsWith "Résumé direct" = false)
    (hbig : chunk_size < (encode text_for_llm).length)
    (hch : chunk_text_by_tokens encode hfDecode ratioRound fuel text_for_llm
      chunk_size overlap = some chunks) :
    generate_summary encode hfDecode ratioRound oracle fuel text_for_llm
      user_prompt chunk_size overlap mode_resume =
    some (Except.ok (f chunks.length, expectedBlocks f chunks 1 0),
      expectedPrompts user_prompt chunks.length chunks 1 ++
        [user_prompt ++ "\n\nVoici les résumés des blocs :\n" ++
          String.intercalate "\n\n" (expectedBlocks f chunks 1 0) ++
          "\n\nProduis **un seul résumé final** structuré. Ne répète pas bloc par bloc."]) := by
  unfold generate_summary
  rw [if_neg]
  · rw [hch]
    simp only [summarizeBlocks_all_ok oracle f hok user_prompt, hok, Nat.zero_add]
  · unfold count_tokens
    rw [hmode]
    simp
    omega

lemma decodeByRatio_length {τ : Type} (words : List String) (ratio overlap : Nat) :
    ∀ (chs : List (List τ)) (idx : Int),
      (decodeByRatio words ratio overlap chs idx).length = chs.length := by
  intro chs
  induction chs with
  | nil => intro idx; rfl
  | cons c rest ih => intro idx; simp [decodeByRatio, ih]

/-- Whatever decoding path is taken (HuggingFace decode or the proportional
word-slice fallback), `chunk_text_by_tokens` returns one text chunk per
window. -/
lemma chunk_text_by_tokens_length {τ : Type} (encode : String → List τ)
    (hfDecode : Option (List τ → String)) (ratioRound : Nat → Nat → Nat)
    (fuel : Nat) (text : String) (max_tokens overlap : Nat)
    (ws : List (Nat × Nat)) (hne : encode text ≠ [])
    (hws : loopWindows fuel (encode text).length max_tokens overlap 0 = some ws) :
    ∃ cs, chunk_text_by_tokens encode hfDecode ratioRound fuel text max_tokens overlap
        = some cs ∧ cs.length = ws.length := by
  have hemp : (encode text).isEmpty = false := by
    cases h : encode text with
    | nil => exact absurd h hne
    | cons a l => rfl
  have hz : ¬ (encode text).length = 0 := by
    intro h
    exact hne (List.length_eq_zero.mp h)
  unfold chunk_text_by_tokens
  simp only [hemp, Bool.false_eq_true, if_false, hws]
  cases hfDecode with
  | some dec => exact ⟨_, rfl, by simp⟩
  | none =>
    rw [if_neg hz]
    exact ⟨_, rfl, by rw [decodeByRatio_length, List.length_map]⟩

/-! ## C3: end-to-end scenario B (14000 tokens, chunk size 6000, overlap 200) -/

/-- The concrete window computation of scenario B: three iterations. -/
lemma loopWindows_scenario_b :
    loopWindows 3 14000 6000 200 0 =
      some [(0, 6000), (5800, 11800), (11600, 14000)] := by decide

/-- C3: for any text encoding to exactly 14000 tokens, with
`max_tokens = 6000`, `overlap = 200`, a non-direct mode and a succeeding LLM,
the pipeline takes the chunked strategy; the window loop produces exactly the
windows `[0,6000)`, `[5800,11800)`, `[11600,14000)`; three chunk prompts and
one synthesis prompt are issued, 4 external calls in total, and the final
summary is the output of the fourth call. -/
theorem scenario_b_windows_and_four_calls {τ : Type} (encode : String → List τ)
    (hfDecode : Option (List τ → String)) (ratioRound : Nat → Nat → Nat)
    (oracle : Nat → Except String String) (f : Nat → String)
    (fuel : Nat) (text user_prompt mode_resume : String)
    (hlen : (encode text).length = 14000)
    (hmode : mode_resume.startsWith "Résumé direct" = false)
    (hfuel : 3 ≤ fuel) (hok : ∀ k, oracle k = Except.ok (f k)) :
    loopWindows fuel 14000 6000 200 0 =
      some [(0, 6000), (5800, 11800), (11600, 14000)] ∧
    ∃ chunks synth,
      chunk_text_by_tokens encode hfDecode ratioRound fuel text 6000 200 = some chunks ∧
      chunks.length = 3 ∧
      generate_summary encode hfDecode ratioRound oracle fuel text user_prompt
          6000 200 mode_resume =
        some (Except.ok (f 3, expectedBlocks f chunks 1 0),
          expectedPrompts user_prompt 3 chunks 1 ++ [synth]) ∧
      (expectedPrompts user_prompt 3 chunks 1 ++ [synth]).length = 4 := by
  have hw : loopWindows fuel 14000 6000 200 0 =
      some [(0, 6000), (5800, 11800), (11600, 14000)] :=
    loopWindows_mono hfuel loopWindows_scenario_b
  refine ⟨hw, ?_⟩
  have hne : encode text ≠ [] := by
    intro h
    rw [h] at hlen
    simp at hlen
  obtain ⟨cs, hcs, hcslen⟩ :=
    chunk_text_by_tokens_length encode hfDecode ratioRound fuel text 6000 200
      [(0, 6000), (5800, 11800), (11600, 14000)] hne (by rw [hlen]; exact hw)
  have hcs3 : cs.length = 3 := by simpa using hcslen
  have hmain := generate_summary_chunked_all_ok encode hfDecode ratioRound oracle f hok
    fuel text user_prompt 6000 200 mode_resume cs hmode (by omega) hcs
  refine ⟨cs, user_prompt ++ "\n\nVoici les résumés des blocs :\n" ++
    String.intercalate "\n\n" (expectedBlocks f cs 1 0) ++
    "\n\nProduis **un seul résumé final** structuré. Ne répète pas bloc par bloc.",
    hcs, hcs3, ?_, ?_⟩
  · rw [hmain, hcs3]
  · rw [List.length_append, expectedPrompts_length, hcs3]
    rfl

/-- Concrete run of the C3 theorem (14000 identical tokens, constant chunk
decoding, call `k` answering `sk`). -/
theorem scenario_b_windows_and_four_calls_witness :
    loopWindows 3 14000 6000 200 0 =
      some [(0, 6000), (5800, 11800), (11600, 14000)] ∧
    ∃ chunks synth,
      chunk_text_by_tokens (fun _ => List.replicate 14000 (0 : Nat))
        (some fun _ => "c") (fun _ _ => 1) 3 "t" 6000 200 = some chunks ∧
      chunks.length = 3 ∧
      generate_summary (fun _ => List.replicate 14000 (0 : Nat)) (some fun _ => "c")
          (fun _ _ => 1) (fun k => Except.ok (toString k)) 3 "t" "u" 6000 200 "blocs" =
        some (Except.ok (toString 3, expectedBlocks (fun k => toString k) chunks 1 0),
          expectedPrompts "u" 3 chunks 1 ++ [synth]) ∧
      (expectedPrompts "u" 3 chunks 1 ++ [synth]).length = 4 :=
  scenario_b_windows_and_four_calls (fun _ => List.replicate 14000 (0 : Nat))
    (some fun _ => "c") (fun _ _ => 1) (fun k => Except.ok (toString k))
    (fun k => toString k) 3 "t" "u" "blocs" (List.length_replicate 14000 0)
    (by decide) (by decide) (fun k => rfl)

/-! ## C5: direct strategy -/

/-- C5: whenever the direct mode is selected, or the total token count is at
most `chunk_size`, `generate_summary` takes the direct branch: exactly one
external call is issued, its prompt embeds the full input text, and on
success the result carries an empty `chunk_summaries` list. -/
theorem direct_strategy_single_call {τ : Type} (encode : String → List τ)
    (hfDecode : Option (List τ → String)) (ratioRound : Nat → Nat → Nat)
    (oracle : Nat → Except String String) (fuel : Nat)
    (text user_prompt mode_resume : String) (chunk_size overlap : Nat)
    (hdirect : mode_resume.startsWith "Résumé direct" = true ∨
      count_tokens encode text ≤ chunk_size) :
    ∃ r, generate_summary encode hfDecode ratioRound oracle fuel text user_prompt
        chunk_size overlap mode_resume =
      some (r, [user_prompt ++ "\n\nTexte à résumer:\n```text\n" ++ text ++ "\n```"]) ∧
    (∃ a b, user_prompt ++ "\n\nTexte à résumer:\n```text\n" ++ text ++ "\n```"
      = a ++ text ++ b) ∧
    (∀ s, oracle 0 = Except.ok s → r = Except.ok (s, [])) := by
  have hpre : ∃ a b, user_prompt ++ "\n\nTexte à résumer:\n```text\n" ++ text ++ "\n```"
      = a ++ text ++ b :=
    ⟨user_prompt ++ "\n\nTexte à résumer:\n```text\n", "\n```", rfl⟩
  unfold generate_summary
  rw [if_pos hdirect]
  cases ho : oracle 0 with
  | ok s =>
    refine ⟨Except.ok (s, []), rfl, hpre, ?_⟩
    intro s2 hs2
    injection hs2 with h
    rw [h]
  | error e =>
    refine ⟨Except.error e, rfl, hpre, ?_⟩
    intro s2 hs2
    exact absurd hs2 (by simp)

/-- Concrete run of the C5 theorem: a 2-token text with `chunk_size = 6000`
(scenario A shape) and a succeeding call. -/
theorem direct_strategy_single_call_witness :
    ∃ r, generate_summary (fun _ => ([3, 4] : List Nat))
        (none : Option (List Nat → String)) (fun _ _ => 1) (fun _ => Except.ok "S")
        9 "tt" "u" 6000 200 "blocs" =
      some (r, ["u" ++ "\n\nTexte à résumer:\n```text\n" ++ "tt" ++ "\n```"]) ∧
    (∃ a b, "u" ++ "\n\nTexte à résumer:\n```text\n" ++ "tt" ++ "\n```"
      = a ++ "tt" ++ b) ∧
    (∀ s, (Except.ok "S" : Except String String) = Except.ok s → r = Except.ok (s, [])) :=
  direct_strategy_single_call (fun _ => ([3, 4] : List Nat)) none (fun _ _ => 1)
    (fun _ => Except.ok "S") 9 "tt" "u" "blocs" 6000 200 (Or.inr (by decide))

/-! ## C6: synthesis ordering -/

/-- C6: in a chunked run where every call succeeds, the issued prompts are the
chunk prompts in chunk order followed by exactly one synthesis prompt (so the
synthesis call happens after every chunk call); the synthesis prompt embeds
the block summaries joined in chunk order (`expectedBlocks` lists block 1,
then block 2, ...); and the final summary is the output of that one synthesis
call, which is distinct from (and later than) all chunk calls. -/
theorem synthesis_call_last_and_blocks_in_order {τ : Type} (encode : String → List τ)
    (hfDecode : Option (List τ → String)) (ratioRound : Nat → Nat → Nat)
    (oracle : Nat → Except String String) (f : Nat → String) (fuel : Nat)
    (text user_prompt mode_resume : String) (chunk_size overlap : Nat)
    (chunks : List String)
    (hok : ∀ k, oracle k = Except.ok (f k))
    (hmode : mode_resume.startsWith "Résumé direct" = false)
    (hbig : chunk_size < (encode text).length)
    (hch : chunk_text_by_tokens encode hfDecode ratioRound fuel text chunk_size overlap
      = some chunks) :
    generate_summary encode hfDecode ratioRound oracle fuel text user_prompt
        chunk_size overlap mode_resume =
      some (Except.ok (f chunks.length, expectedBlocks f chunks 1 0),
        expectedPrompts user_prompt chunks.length chunks 1 ++
          [user_prompt ++ "\n\nVoici les résumés des blocs :\n" ++
            String.intercalate "\n\n" (expectedBlocks f chunks 1 0) ++
            "\n\nProduis **un seul résumé final** structuré. Ne répète pas bloc par bloc."]) ∧
    (expectedPrompts user_prompt chunks.length chunks 1).length = chunks.length :=
  ⟨generate_summary_chunked_all_ok encode hfDecode ratioRound oracle f hok fuel
    text user_prompt chunk_size overlap mode_resume chunks hmode hbig hch,
   expectedPrompts_length user_prompt chunks.length chunks 1⟩

/-- Concrete run of the C6 theorem: 3 tokens, chunk size 1, each chunk
decoding to `"c"`, call `k` answering `toString k`. -/
theorem synthesis_call_last_and_blocks_in_order_witness :
    generate_summary (fun _ => ([0, 1, 2] : List Nat)) (some fun _ => "c")
        (fun _ _ => 1) (fun k => Except.ok (toString k)) 3 "t" "u" 1 0 "X" =
      some (Except.ok (toString (["c", "c", "c"] : List String).length,
          expectedBlocks (fun k => toString k) ["c", "c", "c"] 1 0),
        expectedPrompts "u" (["c", "c", "c"] : List String).length ["c", "c", "c"] 1 ++
          ["u" ++ "\n\nVoici les résumés des blocs :\n" ++
            String.intercalate "\n\n"
              (expectedBlocks (fun k => toString k) ["c", "c", "c"] 1 0) ++
            "\n\nProduis **un seul résumé final** structuré. Ne répète pas bloc par bloc."]) ∧
    (expectedPrompts "u" (["c", "c", "c"] : List String).length ["c", "c", "c"] 1).length
      = (["c", "c", "c"] : List String).length :=
  synthesis_call_last_and_blocks_in_order (fun _ => ([0, 1, 2] : List Nat))
    (some fun _ => "c") (fun _ _ => 1) (fun k => Except.ok (toString k))
    (fun k => toString k) 3 "t" "u" "X" 1 0 ["c", "c", "c"] (fun k => rfl)
    (by decide) (by decide) (by decide)

/-! ## C7: failure of a chunk call -/

/-- If calls `k, ..., k+j-1` succeed and call `k+j` raises, the per-chunk loop
stops with that error after issuing exactly `j+1` prompts: no prompt is built
for any later chunk. -/
lemma summarizeBlocks_fail (oracle : Nat → Except String String) (f : Nat → String)
    (user_prompt : String) (total : Nat) (e : String) :
    ∀ (chs : List String) (j i k : Nat), j < chs.length →
    (∀ m, m < j → oracle (k + m) = Except.ok (f (k + m))) →
    oracle (k + j) = Except.error e →
    ∃ ps, summarizeBlocks oracle user_prompt total chs i k
        = (Except.error e, ps, k + j + 1) ∧ ps.length = j + 1 := by
  intro chs
  induction chs with
  | nil =>
    intro j i k hj _ _
    simp at hj
  | cons c rest ih =>
    intro j i k hj hok herr
    cases j with
    | zero =>
      have herr2 : oracle k = Except.error e := by simpa using herr
      refine ⟨[user_prompt ++ "\n\nTu résumes le **bloc " ++ toString i ++ "/" ++
        toString total ++ "** ci-dessous.\n```text\n" ++ c ++ "\n```"], ?_, rfl⟩
      rw [show k + 0 + 1 = k + 1 by omega, summarizeBlocks, herr2]
    | succ j2 =>
      have h0 : oracle k = Except.ok (f k) := by
        have h := hok 0 (by omega)
        simpa using h
      have hok2 : ∀ m, m < j2 → oracle (k + 1 + m) = Except.ok (f (k + 1 + m)) := by
        intro m hm
        have h := hok (m + 1) (by omega)
        have harr : k + (m + 1) = k + 1 + m := by omega
        rwa [harr] at h
      have herr2 : oracle (k + 1 + j2) = Except.error e := by
        have harr : k + (j2 + 1) = k + 1 + j2 := by omega
        rwa [harr] at herr
      have hjl : j2 < rest.length := by
        simp only [List.length_cons] at hj
        omega
      obtain ⟨ps, hps, hlen⟩ := ih j2 (i + 1) (k + 1) hjl hok2 herr2
      refine ⟨(user_prompt ++ "\n\nTu résumes le **bloc " ++ toString i ++ "/" ++
        toString total ++ "** ci-dessous.\n```text\n" ++ c ++ "\n```") :: ps, ?_, ?_⟩
      · rw [show k + (j2 + 1) + 1 = k + 1 + j2 + 1 by omega, summarizeBlocks, h0, hps]
        rfl
      · simp [hlen]

/-- C7 (amended): in a chunked run where the call for chunk `j+1` (0-based
index `j`) raises while all earlier chunk calls succeeded, the pipeline
returns exactly that underlying error, after issuing only the first `j+1`
chunk prompts: no later chunk call and no synthesis call is issued.  The
propagated error is the external call's own error, unchanged — it does not
carry the chunk index (chunk progress is only written to the optional status
channel). -/
theorem chunk_call_failure_aborts_pipeline {τ : Type} (encode : String → List τ)
    (hfDecode : Option (List τ → String)) (ratioRound : Nat → Nat → Nat)
    (oracle : Nat → Except String String) (f : Nat → String) (fuel : Nat)
    (text user_prompt mode_resume : String) (chunk_size overlap : Nat)
    (chunks : List String) (j : Nat) (e : String)
    (hmode : mode_resume.startsWith "Résumé direct" = false)
    (hbig : chunk_size < (encode text).length)
    (hch : chunk_text_by_tokens encode hfDecode ratioRound fuel text chunk_size overlap
      = some chunks)
    (hj : j < chunks.length)
    (hok : ∀ m, m < j → oracle m = Except.ok (f m))
    (herr : oracle j = Except.error e) :
    ∃ ps, generate_summary encode hfDecode ratioRound oracle fuel text user_prompt
        chunk_size overlap mode_resume = some (Except.error e, ps) ∧
      ps.length = j + 1 := by
  obtain ⟨ps, hps, hlen⟩ := summarizeBlocks_fail oracle f user_prompt chunks.length e
    chunks j 1 0 hj (fun m hm => by simpa using hok m hm) (by simpa using herr)
  refine ⟨ps, ?_, hlen⟩
  unfold generate_summary
  rw [if_neg]
  · rw [hch]
    simp only [hps]
  · unfold count_tokens
    rw [hmode]
    simp
    omega

/-- Concrete run of the C7 theorem: 3 chunks, the second chunk call raises
`"boom"`; only 2 prompts are issued and the error comes back verbatim. -/
theorem chunk_call_failure_aborts_pipeline_witness :
    ∃ ps, generate_summary (fun _ => ([0, 1, 2] : List Nat)) (some fun _ => "c")
        (fun _ _ => 1) (fun k => if k = 0 then Except.ok "s0" else Except.error "boom")
        3 "t" "u" 1 0 "X" = some (Except.error "boom", ps) ∧ ps.length = 1 + 1 :=
  chunk_call_failure_aborts_pipeline (fun _ => ([0, 1, 2] : List Nat))
    (some fun _ => "c") (fun _ _ => 1)
    (fun k => if k = 0 then Except.ok "s0" else Except.error "boom")
    (fun _ => "s0") 3 "t" "u" "X" 1 0 ["c", "c", "c"] 1 "boom" (by decide) (by decide)
    (by decide) (by decide)
    (fun m hm => by
      have hm0 : m = 0 := by omega
      rw [hm0]
      rfl)
    rfl

/-- Projection of a pipeline outcome to the error it raised, if any. -/
def raisedError (r : Option (Except String (String × List String) × List String)) :
    Option String :=
  match r with
  | some (Except.error e, _) => some e
  | _ => none

/-- C7 counterexample for "the error identifies which chunk failed": two runs
that differ only in which chunk call raises — the first chunk in one run, the
second chunk in the other — return the identical error `"boom"`, so the error
returned to the caller does not determine the failing chunk. -/
theorem chunk_failure_error_has_no_chunk_index :
    raisedError (generate_summary (fun _ => ([0, 1, 2] : List Nat)) (some fun _ => "c")
        (fun _ _ => 1) (fun _ => Except.error "boom") 3 "t" "u" 1 0 "X")
      = some "boom" ∧
    raisedError (generate_summary (fun _ => ([0, 1, 2] : List Nat)) (some fun _ => "c")
        (fun _ _ => 1) (fun k => if k = 0 then Except.ok "s0" else Except.error "boom")
        3 "t" "u" 1 0 "X")
      = some "boom" := by
  constructor
  · rfl
  · rfl

/-! ## C8: endpoint dispatch (`chat_or_complete`) -/

/-- Outcome of one external HTTP endpoint call (`call_chat_completions` /
`call_completions`): `ok s` = the call returned the string `s`;
`httpError e` = it raised `requests.exceptions.HTTPError` rendering as `e`
(for the chat endpoint this already includes the appended response detail of
line 658); `exc e` = it raised any other exception rendering as `e`. -/
inductive Outcome where
  | ok (s : String)
  | httpError (e : String)
  | exc (e : String)
deriving DecidableEq

/-- The two LM-Studio endpoints, for recording which were attempted. -/
inductive Endpoint where
  | chatCompletions
  | completions
deriving DecidableEq

/-- The string rendering of the exception carried by an outcome. -/
def Outcome.msg : Outcome → String
  | Outcome.ok s => s
  | Outcome.httpError e => e
  | Outcome.exc e => e

/-- Whether the endpoint call raised. -/
def Outcome.isFail : Outcome → Bool
  | Outcome.ok _ => false
  | Outcome.httpError _ => true
  | Outcome.exc _ => true

/-- Python `f"{last_error}"`: `None` renders as the string `"None"`. -/
def pyStr : Option String → String
  | none => "None"
  | some e => e

/-- The tail of `chat_or_complete` (lines 713-715): re-raise the remembered
chat error if there is one, otherwise return the empty string. -/
def finalBlock (last_error : Option String) (tried : List Endpoint) :
    Except String String × List Endpoint :=
  match last_error with
  | some le => (Except.error le, tried)
  | none => (Except.ok "", tried)

/-- The completions block of `chat_or_complete` (lines 695-711): attempt the
raw-completions endpoint (on the merged prompt), returning a non-empty result,
raising an aggregated error on `HTTPError`, an `Échec chat ... et
completions ...` error (or the bare exception) on any other exception, and
falling through to `finalBlock` when the result is empty or the block is
skipped. -/
def secondBlock (comp : Outcome) (mode : String) (last_error : Option String)
    (tried : List Endpoint) : Except String String × List Endpoint :=
  if mode = "auto" ∨ mode = "completions" then
    let tried2 := tried ++ [Endpoint.completions]
    match comp with
    | Outcome.ok r =>
      if r ≠ "" then (Except.ok r, tried2)
      else finalBlock last_error tried2
    | Outcome.httpError e =>
      (Except.error ("Échec des deux endpoints API.\n- /v1/chat/completions: " ++
        pyStr last_error ++ "\n- /v1/completions: " ++ e ++
        "\n\nVérifiez LM Studio et le Context Length."), tried2)
    | Outcome.exc e =>
      match last_error with
      | some le =>
        (Except.error ("Échec chat (" ++ le ++ ") et completions (" ++ e ++ ")"), tried2)
      | none => (Except.error e, tried2)
  else finalBlock last_error tried

/-- `chat_or_complete` (src/streamlit_appv6.py, lines 677-715).  `chat` and
`comp` are the outcomes of the two external endpoint calls; `mode` is the
`api_mode_key` string.  Returns the Python return value or raised error, plus
the endpoints attempted, in order.  An empty chat result falls through to the
completions block without recording an error, exactly as `if result:` does in
the source. -/
def chat_or_complete (chat comp : Outcome) (mode : String) :
    Except String String × List Endpoint :=
  if mode = "auto" ∨ mode = "chat" then
    match chat with
    | Outcome.ok r =>
      if r ≠ "" then (Except.ok r, [Endpoint.chatCompletions])
      else secondBlock comp mode none [Endpoint.chatCompletions]
    | Outcome.httpError e =>
      if mode = "chat" then
        (Except.error ("Erreur API chat/completions: " ++ e ++ "."),
         [Endpoint.chatCompletions])
      else secondBlock comp mode (some e) [Endpoint.chatCompletions]
    | Outcome.exc e =>
      if mode = "chat" then (Except.error e, [Endpoint.chatCompletions])
      else secondBlock comp mode (some e) [Endpoint.chatCompletions]
  else secondBlock comp mode none []

/-- C8 counterexample: the chat endpoint fails with HTTP 500 and the
completions endpoint succeeds — but returns the empty string (a successful
HTTP call whose response has no usable `choices`, as `call_completions`
returns `""` for it).  The claim says the completions result is returned and
the chat failure is not surfaced as fatal; the code instead falls through to
`if last_error: raise last_error` and raises the chat failure. -/
theorem auto_mode_empty_completion_raises_chat_error :
    (chat_or_complete (Outcome.httpError "500 Server Error") (Outcome.ok "") "auto").1
      = Except.error "500 Server Error" ∧
    (chat_or_complete (Outcome.httpError "500 Server Error") (Outcome.ok "") "auto").1
      ≠ Except.ok "" := by
  constructor
  · rfl
  · intro h
    exact Except.noConfusion h

/-- The completions block never removes the already-attempted endpoints from
the trace: it only ever appends the completions endpoint. -/
lemma secondBlock_tried (comp : Outcome) (mode : String) (last_error : Option String)
    (tried : List Endpoint) :
    (secondBlock comp mode last_error tried).2 = tried ∨
    (secondBlock comp mode last_error tried).2 = tried ++ [Endpoint.completions] := by
  by_cases hm : mode = "auto" ∨ mode = "completions"
  · cases comp with
    | ok r =>
      by_cases hr : r = ""
      · subst hr
        cases last_error with
        | none => right; simp [secondBlock, finalBlock, hm]
        | some le => right; simp [secondBlock, finalBlock, hm]
      · right
        simp [secondBlock, hm, hr]
    | httpError e => right; simp [secondBlock, hm]
    | exc e =>
      cases last_error with
      | none => right; simp [secondBlock, hm]
      | some le => right; simp [secondBlock, hm]
  · cases last_error with
    | none => left; simp [secondBlock, finalBlock, hm]
    | some le => left; simp [secondBlock, finalBlock, hm]

/-- C8 (amended): in `auto` mode the chat endpoint is always attempted first;
if the chat call fails and the completions call succeeds with a *non-empty*
result, that result is returned and the chat failure is not surfaced; if both
calls fail, a single aggregated error is raised whose message contains both
underlying failure messages.  (If the completions call succeeds with an empty
result after a chat failure, the chat error is re-raised instead.) -/
theorem auto_mode_chat_first_fallback_aggregate (chat comp : Outcome) (s : String) :
    (chat_or_complete chat comp "auto").2.head? = some Endpoint.chatCompletions ∧
    (chat.isFail = true → s ≠ "" →
      (chat_or_complete chat (Outcome.ok s) "auto").1 = Except.ok s) ∧
    (chat.isFail = true → comp.isFail = true →
      ∃ a b c, (chat_or_complete chat comp "auto").1 =
        Except.error (a ++ chat.msg ++ b ++ comp.msg ++ c)) := by
  refine ⟨?_, ?_, ?_⟩
  · have hauto : ("auto" : String) = "auto" ∨ ("auto" : String) = "chat" := Or.inl rfl
    have hchat : ¬ ("auto" : String) = "chat" := by decide
    unfold chat_or_complete
    rw [if_pos hauto]
    cases chat with
    | ok r =>
      by_cases hr : r ≠ ""
      · simp [hr]
      · rcases secondBlock_tried comp "auto" none [Endpoint.chatCompletions] with h | h <;>
          simp [hr, h]
    | httpError e =>
      rcases secondBlock_tried comp "auto" (some e) [Endpoint.chatCompletions] with h | h <;>
        simp [hchat, h]
    | exc e =>
      rcases secondBlock_tried comp "auto" (some e) [Endpoint.chatCompletions] with h | h <;>
        simp [hchat, h]
  · intro hfail hs
    cases chat with
    | ok r => simp [Outcome.isFail] at hfail
    | httpError e =>
      show (secondBlock (Outcome.ok s) "auto" (some e) [Endpoint.chatCompletions]).1
        = Except.ok s
      simp [secondBlock, hs]
    | exc e =>
      show (secondBlock (Outcome.ok s) "auto" (some e) [Endpoint.chatCompletions]).1
        = Except.ok s
      simp [secondBlock, hs]
  · intro hcf hkf
    cases chat with
    | ok r => simp [Outcome.isFail] at hcf
    | httpError e =>
      cases comp with
      | ok r => simp [Outcome.isFail] at hkf
      | httpError e2 =>
        exact ⟨"Échec des deux endpoints API.\n- /v1/chat/completions: ",
          "\n- /v1/completions: ", "\n\nVérifiez LM Studio et le Context Length.", rfl⟩
      | exc e2 =>
        exact ⟨"Échec chat (", ") et completions (", ")", rfl⟩
    | exc e =>
      cases comp with
      | ok r => simp [Outcome.isFail] at hkf
      | httpError e2 =>
        exact ⟨"Échec des deux endpoints API.\n- /v1/chat/completions: ",
          "\n- /v1/completions: ", "\n\nVérifiez LM Studio et le Context Length.", rfl⟩
      | exc e2 =>
        exact ⟨"Échec chat (", ") et completions (", ")", rfl⟩

/-- Concrete run of the C8 theorem: chat raises HTTP 500; in one scenario the
completions endpoint answers `"res"`, in the other it raises a connection
error. -/
theorem auto_mode_chat_first_fallback_aggregate_witness :
    (chat_or_complete (Outcome.httpError "500") (Outcome.exc "conn") "auto").2.head?
      = some Endpoint.chatCompletions ∧
    (chat_or_complete (Outcome.httpError "500") (Outcome.ok "res") "auto").1
      = Except.ok "res" ∧
    (∃ a b c, (chat_or_complete (Outcome.httpError "500") (Outcome.exc "conn") "auto").1 =
      Except.error (a ++ (Outcome.httpError "500").msg ++ b ++ (Outcome.exc "conn").msg ++ c)) := by
  obtain ⟨h1, h2, h3⟩ :=
    auto_mode_chat_first_fallback_aggregate (Outcome.httpError "500") (Outcome.exc "conn") "res"
  exact ⟨h1, h2 rfl (by decide), h3 rfl rfl⟩

/-! ## C9: the tokenizer adapter never raises -/

/-- The loaded HuggingFace tokenizer object: `enc` is `tok.encode` (fallible),
`dec` is `tok.decode`. -/
structure HfTokenizer where
  enc : String → Except String (List Nat)
  dec : List Nat → String

/-- A token: an integer id (HuggingFace / tiktoken) or, in the last-resort
whitespace fallback, a word string. -/
inductive Token where
  | id (n : Nat)
  | word (w : String)
deriving DecidableEq

/-- The tiktoken stage of `encode_tokens` (src/streamlit_appv6.py, lines
564-569): try the approximate backend, and on any failure (import error,
encoding loading, encoding) fall back to whitespace splitting.  `tiktok text`
is the outcome of `tiktoken.get_encoding("cl100k_base").encode(text)`. -/
def tiktokenStage (tiktok : String → Except String (List Nat)) (text : String) :
    List Token :=
  match tiktok text with
  | Except.ok ids => ids.map Token.id
  | Except.error _ => (pySplit text).map Token.word

/-- `encode_tokens` (src/streamlit_appv6.py, lines 551-569).  `hf` is the
result of `get_hf_tokenizer(hf_model_id)` (`none` when loading failed; that
path shows its own warning inside `get_hf_tokenizer`).  Every exception a
stage can raise is caught in the source, so the embedding is a total function
returning the token sequence together with the warnings this function
emits — there is no error outcome. -/
def encode_tokens (hf : Option HfTokenizer)
    (tiktok : String → Except String (List Nat)) (text backend : String) :
    List Token × List String :=
  if text = "" then ([], [])
  else if backend = "HuggingFace" then
    match hf with
    | none => (tiktokenStage tiktok text, [])
    | some tok =>
      match tok.enc text with
      | Except.ok ids => (ids.map Token.id, [])
      | Except.error e =>
        (tiktokenStage tiktok text, ["Echec encodage HF, fallback tiktoken: " ++ e])
  else (tiktokenStage tiktok text, [])

/-- C9: `encode_tokens` always returns a token sequence, never an error: the
empty string encodes to the empty sequence; when the precise (HuggingFace)
backend fails to encode, a non-fatal warning is emitted and the approximate
(tiktoken) backend is used; and when that fails too, the whitespace split is
returned — so every failure path ends in a token sequence. -/
theorem encode_tokens_total_with_fallback (hf : Option HfTokenizer)
    (tiktok : String → Except String (List Nat)) (text backend : String) :
    (encode_tokens hf tiktok "" backend = ([], [])) ∧
    (∀ tok e, backend = "HuggingFace" → hf = some tok → text ≠ "" →
      tok.enc text = Except.error e →
      encode_tokens hf tiktok text backend =
        (tiktokenStage tiktok text, ["Echec encodage HF, fallback tiktoken: " ++ e])) ∧
    (∀ ids, tiktok text = Except.ok ids →
      tiktokenStage tiktok text = ids.map Token.id) ∧
    (∀ e, tiktok text = Except.error e →
      tiktokenStage tiktok text = (pySplit text).map Token.word) := by
  refine ⟨?_, ?_, ?_, ?_⟩
  · rfl
  · intro tok e hb hhf hne henc
    subst hb
    subst hhf
    unfold encode_tokens
    rw [if_neg hne, if_pos rfl]
    simp only [henc]
  · intro ids h
    unfold tiktokenStage
    rw [h]
  · intro e h
    unfold tiktokenStage
    rw [h]

/-- Concrete run of the C9 theorem: the HuggingFace tokenizer is loaded but
raises on encoding, tiktoken is unavailable — the text is whitespace-split
and the warning carries the HuggingFace error. -/
theorem encode_tokens_total_with_fallback_witness :
    encode_tokens (some ⟨fun _ => Except.error "boom", fun _ => ""⟩)
        (fun _ => Except.error "tk") "a b" "HuggingFace" =
      ([Token.word "a", Token.word "b"], ["Echec encodage HF, fallback tiktoken: boom"]) := by
  have h := encode_tokens_total_with_fallback
    (some ⟨fun _ => Except.error "boom", fun _ => ""⟩)
    (fun _ => Except.error "tk") "a b" "HuggingFace"
  have h1 := h.2.1 ⟨fun _ => Except.error "boom", fun _ => ""⟩ "boom" rfl rfl
    (by decide) rfl
  have h2 := h.2.2.2 "tk" rfl
  rw [h1, h2]
  decide

/-! ## C10: diarization text assignment -/

/-- `_diarize_audio` (src/audio_processing.py, lines 110-153), the
combination step after the external pyannote pipeline produced its speaker
turns: `turns` is the list of `(turn.start, turn.end, speaker)` triples
yielded by `diarization.itertracks(yield_label=True)`, in order.  The time
stamps are only copied, never computed with, so they are modelled as
rationals.  The `HF_TOKEN` check and the pipeline call itself are external
preconditions handled before this step. -/
def _diarize_audio (turns : List (ℚ × ℚ × String)) (transcription : String) :
    List (ℚ × ℚ × String × String) :=
  let segments := turns.map (fun t => (t.1, t.2.1, t.2.2, ""))
  match segments with
  | [] => [(0, 0, "SPEAKER_00", transcription)]
  | s :: rest => (s.1, s.2.1, s.2.2.1, transcription) :: rest

/-- C10: with no speaker turns, `_diarize_audio` returns the single segment
`(0.0, 0.0, "SPEAKER_00", transcription)`; with at least one turn, the whole
transcription text is assigned to the first segment only, and every later
segment carries an empty text field. -/
theorem diarize_assigns_text_to_first_segment (turns : List (ℚ × ℚ × String))
    (transcription : String) :
    (turns = [] → _diarize_audio turns transcription
      = [(0, 0, "SPEAKER_00", transcription)]) ∧
    (∀ t rest, turns = t :: rest →
      _diarize_audio turns transcription =
        (t.1, t.2.1, t.2.2, transcription) ::
          rest.map (fun u => (u.1, u.2.1, u.2.2, "")) ∧
      ∀ seg ∈ (_diarize_audio turns transcription).tail, seg.2.2.2 = "") := by
  constructor
  · intro h
    subst h
    rfl
  · intro t rest h
    subst h
    constructor
    · rfl
    · intro seg hseg
      simp only [_diarize_audio, List.map_cons, List.tail_cons] at hseg
      obtain ⟨u, hu, hueq⟩ := List.mem_map.mp hseg
      rw [← hueq]

/-- Concrete run of the C10 theorem: two turns; the transcription lands on
the first segment and the second segment has empty text. -/
theorem diarize_assigns_text_to_first_segment_witness :
    _diarize_audio [(1, 2, "SPEAKER_00"), (3, 4, "SPEAKER_01")] "hello" =
      ((1 : ℚ), (2 : ℚ), "SPEAKER_00", "hello") ::
        [((3 : ℚ), (4 : ℚ), "SPEAKER_01")].map (fun u => (u.1, u.2.1, u.2.2, "")) ∧
    ∀ seg ∈ (_diarize_audio [(1, 2, "SPEAKER_00"), (3, 4, "SPEAKER_01")] "hello").tail,
      seg.2.2.2 = "" :=
  (diarize_assigns_text_to_first_segment
    [(1, 2, "SPEAKER_00"), (3, 4, "SPEAKER_01")] "hello").2
    ((1 : ℚ), (2 : ℚ), "SPEAKER_00") [((3 : ℚ), (4 : ℚ), "SPEAKER_01")] rfl

end Synevola
